import Mathlib

/-!
# Deal registry (`main.go`)

A shallow embedding of the four HTTP handlers of `main.go` (`CreateDeal`,
`UpdateDeal`, `ClaimDeal`, `EndDeal`) as pure functions on the registry
`deals`, followed by the properties of the registry that are proved about
them.

Modelling choices:

* every handler runs under `mu.Lock()` / `defer mu.Unlock()`, so a handler
  is one atomic transition `Registry → Registry × Response`;
* `time.Now()` is an input of the handlers that read the clock;
* the decoded request body is an input: `Except.error msg` is a body that
  `json.Decoder.Decode` rejects, `Except.ok v` the decoded value;
* Go's `int` is a 64-bit two's complement integer: the one arithmetic
  operation of the program, `deal.Claimed++`, wraps (`wrapInt`);
* `Deal.UserId`, a `map[string]bool` in which only `true` is ever stored,
  is the finite set of its keys;
* `Deal.Price`, a `float64` the handlers never compute with, is carried as
  its 64-bit pattern.
-/

namespace DealOfTheDay

/-! ## Data model -/

/-- An instant of `time.Time`, counted in nanoseconds on the time line. -/
abbrev Time := Int

/-- The method `t.After(u)` of `time.Time`: the instant `t` is strictly after `u`. -/
def After (t u : Time) : Bool := decide (u < t)

/-- The range of Go's `int` on a 64-bit platform. -/
def InRange (x : Int) : Prop := -2 ^ 63 ≤ x ∧ x < 2 ^ 63

instance (x : Int) : Decidable (InRange x) := by
  unfold InRange; infer_instance

/-- Two's complement wrap-around of a mathematical integer into Go's `int`. -/
def wrapInt (x : Int) : Int := (x + 2 ^ 63) % 2 ^ 64 - 2 ^ 63

/-- The struct `Deal`. -/
structure Deal where
  Id : String
  Item : Int
  Price : Nat
  EndTime : Time
  Claimed : Int
  UserId : Finset String
deriving DecidableEq

/-- Both `int` fields of a deal hold values of Go's `int`. -/
def Deal.InRange (d : Deal) : Prop := DealOfTheDay.InRange d.Item ∧ DealOfTheDay.InRange d.Claimed

instance (d : Deal) : Decidable d.InRange := by
  unfold Deal.InRange; infer_instance

/-- The struct `UpdateDealData`. -/
structure UpdateDealData where
  Items : Int
  EndTime : Time
deriving DecidableEq

/-- The package variable `deals`, a `map[string]*Deal`: a finite map with
pairwise distinct keys. -/
abbrev Registry := AList (fun _ : String => Deal)

/-- What a handler writes to its `http.ResponseWriter` after the status line:
the message of `http.Error`, or the deal given to `json.Encoder.Encode`. -/
inductive Body where
  | text (msg : String)
  | json (deal : Deal)
deriving DecidableEq

/-- The response of a handler: status code and body. -/
structure Response where
  status : Nat
  body : Body
deriving DecidableEq

def StatusOK : Nat := 200
def StatusCreated : Nat := 201
def StatusBadRequest : Nat := 400
def StatusNotFound : Nat := 404
def StatusGone : Nat := 410

/-- The call `http.Error(w, msg, code)`. -/
def httpError (msg : String) (code : Nat) : Response := ⟨code, Body.text msg⟩

/-- The calls `w.WriteHeader(code)` and `json.NewEncoder(w).Encode(deal)`. -/
def writeDeal (code : Nat) (deal : Deal) : Response := ⟨code, Body.json deal⟩

/-! ## The handlers -/

/-- The function `GenerateId`: the clock reading formatted with the layout
`"123456789"`; `format` stands for the library method `time.Time.Format` at that
layout. -/
def GenerateId (format : Time → String) (now : Time) : String := format now

/-- The handler `ClaimDeal`, for the path variable `id`, the query parameter
`userId` and the clock reading `now`. -/
def ClaimDeal (deals : Registry) (now : Time) (id userId : String) : Registry × Response :=
  match deals.lookup id with
  | some deal =>
    if After now deal.EndTime then
      (deals, httpError "Deal ended" StatusGone)
    else if deal.Claimed ≥ deal.Item then
      (deals, httpError "Deal is out of range" StatusGone)
    else if userId ∈ deal.UserId then
      (deals, httpError "User already claimed the deal" StatusGone)
    else
      let deal1 : Deal :=
        { deal with Claimed := wrapInt (deal.Claimed + 1), UserId := insert userId deal.UserId }
      (deals.insert id deal1, writeDeal StatusOK deal1)
  | none => (deals, httpError "Deal not found" StatusNotFound)

/-- The handler `UpdateDeal`, for the path variable `id` and the decoded body. -/
def UpdateDeal (deals : Registry) (id : String) (body : Except String UpdateDealData) :
    Registry × Response :=
  match body with
  | Except.error err => (deals, httpError err StatusBadRequest)
  | Except.ok updateDealData =>
    match deals.lookup id with
    | some deal =>
      let deal1 : Deal :=
        { deal with Item := updateDealData.Items, EndTime := updateDealData.EndTime }
      (deals.insert id deal1, writeDeal StatusOK deal1)
    | none => (deals, httpError "Deal not found while updating the deal" StatusNotFound)

/-- The handler `EndDeal`, for the path variable `id`. -/
def EndDeal (deals : Registry) (id : String) : Registry × Response :=
  match deals.lookup id with
  | some deal => (deals.erase id, writeDeal StatusOK deal)
  | none => (deals, httpError "Deal not found" StatusNotFound)

/-- The handler `CreateDeal`, for the decoded body (a `Deal`, every field of
which the request may set) and the clock reading `now`. -/
def CreateDeal (format : Time → String) (deals : Registry) (now : Time)
    (body : Except String Deal) : Registry × Response :=
  match body with
  | Except.error err => (deals, httpError err StatusBadRequest)
  | Except.ok deal =>
    let deal1 : Deal := { deal with Id := GenerateId format now, UserId := ∅ }
    (deals.insert deal1.Id deal1, writeDeal StatusCreated deal1)

/-! ## The outcomes the specification names -/

/-- `NotFound`, as `ClaimDeal` and `EndDeal` report it. -/
def NotFound : Response := ⟨StatusNotFound, Body.text "Deal not found"⟩

/-- `NotFound`, as `UpdateDeal` reports it. -/
def UpdateNotFound : Response :=
  ⟨StatusNotFound, Body.text "Deal not found while updating the deal"⟩

/-- `Expired`. -/
def Expired : Response := ⟨StatusGone, Body.text "Deal ended"⟩

/-- `SoldOut`. -/
def SoldOut : Response := ⟨StatusGone, Body.text "Deal is out of range"⟩

/-- `AlreadyClaimed`. -/
def AlreadyClaimed : Response := ⟨StatusGone, Body.text "User already claimed the deal"⟩

/-- A request succeeded with the deal `d` in its body. -/
def Succeeded (r : Response) (d : Deal) : Prop := r = ⟨StatusOK, Body.json d⟩

/-! ## Sequences of requests -/

/-- One request served by the process; the lock serialises the requests, so a
run of the server is a list of them. -/
inductive Op where
  | create (now : Time) (body : Except String Deal)
  | update (id : String) (body : Except String UpdateDealData)
  | claim (now : Time) (id userId : String)
  | endDeal (id : String)

/-- The handler the router dispatches a request to. -/
def step (format : Time → String) (deals : Registry) : Op → Registry × Response
  | Op.create now body => CreateDeal format deals now body
  | Op.update id body => UpdateDeal deals id body
  | Op.claim now id userId => ClaimDeal deals now id userId
  | Op.endDeal id => EndDeal deals id

/-- The registry after a list of requests has been served in order. -/
def run (format : Time → String) (deals : Registry) : List Op → Registry
  | [] => deals
  | op :: ops => run format (step format deals op).1 ops

/-- The registry at process start: `make(map[string]*Deal)`. -/
def emptyDeals : Registry := ∅

/-! ## Predicates on registries and on sequences of requests -/

/-- Every registered deal has claimed no more than its item count. -/
def CapacityRespected (deals : Registry) : Prop :=
  ∀ id deal, deals.lookup id = some deal → deal.Claimed ≤ deal.Item

/-- Every registered deal's claim count is the number of its claimants. -/
def CountMatchesClaimants (deals : Registry) : Prop :=
  ∀ id deal, deals.lookup id = some deal → deal.Claimed = (deal.UserId.card : Int)

/-- A request that cannot put a deal's item count below its claim count: a create
whose body has no claims and a non-negative item count, an update whose item count
is at least the claim count of the deal it updates; any claim, any end, and any
request whose body is rejected. -/
def Op.keepsCapacity (deals : Registry) : Op → Bool
  | Op.create _ (Except.ok deal) => decide (deal.Claimed = 0) && decide (0 ≤ deal.Item)
  | Op.update id (Except.ok data) =>
    match deals.lookup id with
    | some deal => decide (deal.Claimed ≤ data.Items)
    | none => true
  | _ => true

/-- Every request of the list is `Op.keepsCapacity` in the registry it is served in. -/
def runKeepsCapacity (format : Time → String) (deals : Registry) : List Op → Bool
  | [] => true
  | op :: ops => op.keepsCapacity deals && runKeepsCapacity format (step format deals op).1 ops

/-- The request is an update or a claim. -/
def Op.isUpdateOrClaim : Op → Bool
  | Op.update _ _ => true
  | Op.claim _ _ _ => true
  | _ => false

/-- The request is a claim of the deal `id` by the user `userId`. -/
def Op.isClaimOf (id userId : String) : Op → Bool
  | Op.claim _ id1 userId1 => decide (id1 = id) && decide (userId1 = userId)
  | _ => false

/-- The number of requests of the list that are claims of `id` by `userId` and
succeed, when the list is served in order from `deals`. -/
def claimSuccesses (format : Time → String) (id userId : String) (deals : Registry) :
    List Op → Nat
  | [] => 0
  | op :: ops =>
    (if op.isClaimOf id userId && decide ((step format deals op).2.status = StatusOK)
      then 1 else 0)
      + claimSuccesses format id userId (step format deals op).1 ops

/-- The claims `(now, userId)` of the list served in order on the deal `id`: the
final registry and the responses, in the order of the claims. -/
def claimAll (deals : Registry) (id : String) : List (Time × String) → Registry × List Response
  | [] => (deals, [])
  | c :: cs =>
    ((claimAll (ClaimDeal deals c.1 id c.2).1 id cs).1,
      (ClaimDeal deals c.1 id c.2).2 :: (claimAll (ClaimDeal deals c.1 id c.2).1 id cs).2)

/-- The number of responses with status 200. -/
def countOK (rs : List Response) : Nat := rs.countP (fun r => decide (r.status = StatusOK))

/-- The integers of a decoded body are values of Go's `int`, as
`json.Decoder.Decode` guarantees. -/
def Op.inRange : Op → Bool
  | Op.create _ (Except.ok deal) => decide (InRange deal.Item) && decide (InRange deal.Claimed)
  | Op.update _ (Except.ok data) => decide (InRange data.Items)
  | _ => true

/-- The request is not a create whose body sets a claim count. -/
def Op.createsUnclaimed : Op → Bool
  | Op.create _ (Except.ok deal) => decide (deal.Claimed = 0)
  | _ => true

/-- The request is a create with a decoded body whose generated id is `id`. -/
def Op.createsId (format : Time → String) (id : String) : Op → Bool
  | Op.create now (Except.ok _) => decide (GenerateId format now = id)
  | _ => false

/-- Every registered deal carries, in its field `Id`, the key it is registered under. -/
def IdMatchesKey (deals : Registry) : Prop :=
  ∀ id deal, deals.lookup id = some deal → deal.Id = id

/-- The number of registered deals, `len(deals)`. -/
def size (deals : Registry) : Nat := deals.keys.length

/-- The responses to a list of requests served in order, in the order of the requests. -/
def responses (format : Time → String) (deals : Registry) : List Op → List Response
  | [] => []
  | op :: ops => (step format deals op).2 :: responses format (step format deals op).1 ops

/-- No deal registered in `before` and still registered in `after` has a smaller
claim count in `after`. -/
def ClaimedNotDecreased (before after : Registry) : Prop :=
  ∀ id deal deal1, before.lookup id = some deal → after.lookup id = some deal1 →
    deal.Claimed ≤ deal1.Claimed

/-- The request is a create with a decoded body whose generated id is already
registered in `deals`. -/
def Op.replacesDeal (format : Time → String) (deals : Registry) : Op → Bool
  | Op.create now (Except.ok _) => (deals.lookup (GenerateId format now)).isSome
  | _ => false

/-! ## The response on the wire -/

/-- The value of one member of the JSON object a deal is encoded to. `trueMap keys`
is the object that `encoding/json` writes for a `map[string]bool` holding `true`
under each of `keys`; a time and a float are kept as the values they encode. -/
inductive JsonValue where
  | string (s : String)
  | integer (n : Int)
  | number (bits : Nat)
  | timestamp (t : Time)
  | trueMap (keys : Finset String)
deriving DecidableEq

/-- The JSON object `json.Encoder.Encode` writes for a `Deal`: one member for each
exported field of the struct, in the order of declaration, named by the field's
`json` tag, or by the field's name when it has no tag, which is the case of `UserId`. -/
def encodeDeal (deal : Deal) : List (String × JsonValue) :=
  [("id", JsonValue.string deal.Id),
   ("item", JsonValue.integer deal.Item),
   ("price", JsonValue.number deal.Price),
   ("endTime", JsonValue.timestamp deal.EndTime),
   ("claimed", JsonValue.integer deal.Claimed),
   ("UserId", JsonValue.trueMap deal.UserId)]

/-- The body of a response as the caller receives it: the text of `http.Error`, or
the encoded deal. -/
def Body.wire : Body → String ⊕ List (String × JsonValue)
  | Body.text msg => Sum.inl msg
  | Body.json deal => Sum.inr (encodeDeal deal)

end DealOfTheDay

namespace DealOfTheDay

/-! ## Basic facts about the handlers -/

theorem After_iff (t u : Time) : After t u = true ↔ u < t := by
  simp [After]

theorem wrapInt_of_inRange {x : Int} (h : InRange x) : wrapInt x = x := by
  obtain ⟨h1, h2⟩ := h
  unfold wrapInt
  rw [Int.emod_eq_of_lt (by omega) (by omega)]
  omega

/-! ## Claim: order of the checks -/

/-- C1: `ClaimDeal` answers with the first outcome that applies, in the order
NotFound (no deal under `id`), Expired (the clock reading is strictly after
`EndTime`), SoldOut (`Claimed >= Item`), AlreadyClaimed (`userId` is among the
claimants), and otherwise succeeds with a deal; a claim made exactly at `EndTime`
is not Expired. -/
theorem ClaimDeal_first_matching_outcome (deals : Registry) (now : Time) (id userId : String) :
    (deals.lookup id = none → (ClaimDeal deals now id userId).2 = NotFound) ∧
    (∀ deal, deals.lookup id = some deal →
      (deal.EndTime < now → (ClaimDeal deals now id userId).2 = Expired) ∧
      (¬ deal.EndTime < now → deal.Item ≤ deal.Claimed →
        (ClaimDeal deals now id userId).2 = SoldOut) ∧
      (¬ deal.EndTime < now → deal.Claimed < deal.Item → userId ∈ deal.UserId →
        (ClaimDeal deals now id userId).2 = AlreadyClaimed) ∧
      (¬ deal.EndTime < now → deal.Claimed < deal.Item → userId ∉ deal.UserId →
        ∃ deal1, Succeeded (ClaimDeal deals now id userId).2 deal1) ∧
      (now = deal.EndTime → (ClaimDeal deals now id userId).2 ≠ Expired)) := by
  refine ⟨fun h => by simp [ClaimDeal, h, NotFound, httpError], fun deal h => ?_⟩
  refine ⟨?_, ?_, ?_, ?_, ?_⟩
  · intro h1
    simp [ClaimDeal, h, After, h1, Expired, httpError]
  · intro h1 h2
    simp [ClaimDeal, h, After, h1, h2, SoldOut, httpError]
  · intro h1 h2 h3
    simp [ClaimDeal, h, After, h1, not_le.mpr h2, h3, AlreadyClaimed, httpError]
  · intro h1 h2 h3
    simp [ClaimDeal, h, After, h1, not_le.mpr h2, h3, Succeeded, writeDeal]
  · intro h1
    subst h1
    simp only [ClaimDeal, h, After, lt_irrefl, decide_False, Bool.false_eq_true, if_false]
    split_ifs <;> simp [Expired, httpError, writeDeal, StatusGone, StatusOK]

/-! ## Claim: effect of a success -/

/-- C2: when `ClaimDeal` succeeds on the deal stored under `id`, the deal stored
under `id` afterwards has `Claimed` one greater, `UserId` extended by `userId`, the
same `Id`, `Item`, `Price` and `EndTime`, and it is the deal in the response. -/
theorem ClaimDeal_success_effect (deals : Registry) (now : Time) (id userId : String)
    (deal : Deal) (hlook : deals.lookup id = some deal) (hrange : deal.InRange)
    (hok : (ClaimDeal deals now id userId).2.status = StatusOK) :
    ∃ deal1, (ClaimDeal deals now id userId).1.lookup id = some deal1 ∧
      deal1.Claimed = deal.Claimed + 1 ∧
      deal1.UserId = insert userId deal.UserId ∧
      deal1.Id = deal.Id ∧ deal1.Item = deal.Item ∧ deal1.Price = deal.Price ∧
      deal1.EndTime = deal.EndTime ∧
      (ClaimDeal deals now id userId).2 = ⟨StatusOK, Body.json deal1⟩ := by
  obtain ⟨⟨_, hItem⟩, ⟨hClaimed, _⟩⟩ := hrange
  unfold ClaimDeal at hok ⊢
  simp only [hlook] at hok ⊢
  split_ifs at hok ⊢ with h1 h2 h3
  · simp [httpError, StatusGone, StatusOK] at hok
  · simp [httpError, StatusGone, StatusOK] at hok
  · simp [httpError, StatusGone, StatusOK] at hok
  · have hw : wrapInt (deal.Claimed + 1) = deal.Claimed + 1 :=
      wrapInt_of_inRange ⟨by omega, by omega⟩
    exact ⟨_, AList.lookup_insert _, hw, rfl, rfl, rfl, rfl, rfl, rfl⟩

/-- C2, at a deal with one free slot: the claim of `"u"` succeeds and is recorded. -/
theorem ClaimDeal_success_effect_witness :
    ∃ deal1, (ClaimDeal (AList.singleton "a" ⟨"a", 1, 0, 100, 0, ∅⟩) 5 "a" "u").1.lookup "a"
        = some deal1 ∧
      deal1.Claimed = (0 : Int) + 1 ∧
      deal1.UserId = insert "u" (∅ : Finset String) ∧
      deal1.Id = "a" ∧ deal1.Item = 1 ∧ deal1.Price = 0 ∧
      deal1.EndTime = 100 ∧
      (ClaimDeal (AList.singleton "a" ⟨"a", 1, 0, 100, 0, ∅⟩) 5 "a" "u").2
        = ⟨StatusOK, Body.json deal1⟩ :=
  ClaimDeal_success_effect (AList.singleton "a" ⟨"a", 1, 0, 100, 0, ∅⟩) 5 "a" "u"
    ⟨"a", 1, 0, 100, 0, ∅⟩ (by decide) (by decide) (by decide)

/-! ## Claim: an expired deal -/

/-- C3: a claim on a registered deal whose `EndTime` is before the clock reading is
answered Expired, for every user and whatever `Claimed`, `Item` and `UserId` are;
and so is a claim on a deal just created with an `EndTime` before its creation. -/
theorem ClaimDeal_expired_first :
    (∀ (deals : Registry) (now : Time) (id userId : String) (deal : Deal),
      deals.lookup id = some deal → deal.EndTime < now →
      (ClaimDeal deals now id userId).2 = Expired) ∧
    (∀ (format : Time → String) (deals : Registry) (now later : Time) (payload : Deal)
      (userId : String), payload.EndTime < now → now ≤ later →
      (ClaimDeal (CreateDeal format deals now (Except.ok payload)).1 later
        (GenerateId format now) userId).2 = Expired) := by
  have key : ∀ (deals : Registry) (now : Time) (id userId : String) (deal : Deal),
      deals.lookup id = some deal → deal.EndTime < now →
      (ClaimDeal deals now id userId).2 = Expired := by
    intro deals now id userId deal h h1
    simp [ClaimDeal, h, After, h1, Expired, httpError]
  refine ⟨key, ?_⟩
  intro format deals now later payload userId h1 h2
  refine key _ later _ userId { payload with Id := GenerateId format now, UserId := ∅ } ?_ ?_
  · simp [CreateDeal]
  · exact lt_of_lt_of_le h1 h2

/-- C3, at a deal that is expired, sold out and already claimed by the user. -/
theorem ClaimDeal_expired_first_witness :
    (ClaimDeal (AList.singleton "a" ⟨"a", 1, 0, 100, 1, {"u"}⟩) 101 "a" "u").2 = Expired :=
  ClaimDeal_expired_first.1 (AList.singleton "a" ⟨"a", 1, 0, 100, 1, {"u"}⟩) 101 "a" "u"
    ⟨"a", 1, 0, 100, 1, {"u"}⟩ (by decide) (by decide)

/-! ## Failing requests -/

/-- C4: a request that fails leaves the registry as it was: a claim answered
NotFound, Expired, SoldOut or AlreadyClaimed, an update answered NotFound (or
rejected as malformed), and an end answered NotFound. -/
theorem failing_request_keeps_registry :
    (∀ (deals : Registry) (now : Time) (id userId : String),
      ((ClaimDeal deals now id userId).2 = NotFound ∨
       (ClaimDeal deals now id userId).2 = Expired ∨
       (ClaimDeal deals now id userId).2 = SoldOut ∨
       (ClaimDeal deals now id userId).2 = AlreadyClaimed) →
      (ClaimDeal deals now id userId).1 = deals) ∧
    (∀ (deals : Registry) (id : String) (body : Except String UpdateDealData),
      (UpdateDeal deals id body).2.status ≠ StatusOK → (UpdateDeal deals id body).1 = deals) ∧
    (∀ (deals : Registry) (id : String) (body : Except String UpdateDealData),
      (UpdateDeal deals id body).2 = UpdateNotFound → (UpdateDeal deals id body).1 = deals) ∧
    (∀ (deals : Registry) (id : String),
      (EndDeal deals id).2 = NotFound → (EndDeal deals id).1 = deals) := by
  refine ⟨?_, ?_, ?_, ?_⟩
  · intro deals now id userId h
    unfold ClaimDeal at h ⊢
    cases hl : deals.lookup id with
    | none => simp
    | some deal =>
      simp only [hl] at h ⊢
      split_ifs at h ⊢ with h1 h2 h3
      · rfl
      · rfl
      · rfl
      · simp [writeDeal, NotFound, Expired, SoldOut, AlreadyClaimed, StatusOK, StatusGone,
          StatusNotFound] at h
  · intro deals id body h
    unfold UpdateDeal at h ⊢
    cases body with
    | error err => rfl
    | ok data =>
      cases hl : deals.lookup id with
      | none => simp
      | some deal => simp [hl, writeDeal] at h
  · intro deals id body h
    unfold UpdateDeal at h ⊢
    cases body with
    | error err => rfl
    | ok data =>
      cases hl : deals.lookup id with
      | none => simp
      | some deal => simp [hl, writeDeal, UpdateNotFound, StatusOK, StatusNotFound] at h
  · intro deals id h
    unfold EndDeal at h ⊢
    cases hl : deals.lookup id with
    | none => simp
    | some deal => simp [hl, writeDeal, NotFound, StatusOK, StatusNotFound] at h

/-- C4, at a sold-out deal: the rejected claim changes nothing. -/
theorem failing_request_keeps_registry_witness :
    (ClaimDeal (AList.singleton "a" ⟨"a", 1, 0, 100, 1, {"u"}⟩) 5 "a" "v").1
      = AList.singleton "a" ⟨"a", 1, 0, 100, 1, {"u"}⟩ :=
  failing_request_keeps_registry.1 (AList.singleton "a" ⟨"a", 1, 0, 100, 1, {"u"}⟩) 5 "a" "v"
    (Or.inr (Or.inr (Or.inl (by decide))))

/-! ## Lookup after a write -/

theorem lookup_insert_eq_ite (deals : Registry) (id id1 : String) (deal : Deal) :
    (deals.insert id deal).lookup id1 = if id1 = id then some deal else deals.lookup id1 := by
  by_cases h : id1 = id
  · subst h; simp
  · simp [h, AList.lookup_insert_ne h]

theorem lookup_erase_eq_ite (deals : Registry) (id id1 : String) :
    (deals.erase id).lookup id1 = if id1 = id then none else deals.lookup id1 := by
  by_cases h : id1 = id
  · subst h; simp
  · simp [h, AList.lookup_erase_ne h]

/-! ## Create: the claim state of a new deal -/

/-- C9 (what the code does): the deal `CreateDeal` stores and returns has no
claimants, and its `Claimed` is the value of the request body, which the handler
does not reset. -/
theorem CreateDeal_stored (format : Time → String) (deals : Registry) (now : Time)
    (payload : Deal) :
    ∃ deal1, (CreateDeal format deals now (Except.ok payload)).1.lookup (GenerateId format now)
        = some deal1 ∧
      (CreateDeal format deals now (Except.ok payload)).2 = ⟨StatusCreated, Body.json deal1⟩ ∧
      deal1.UserId = ∅ ∧ deal1.Claimed = payload.Claimed ∧ deal1.Id = GenerateId format now ∧
      deal1.Item = payload.Item ∧ deal1.Price = payload.Price ∧
      deal1.EndTime = payload.EndTime :=
  ⟨_, AList.lookup_insert _, rfl, rfl, rfl, rfl, rfl, rfl, rfl⟩

/-- C9, at the body `{"item": 5, "endTime": 100, "claimed": 3}`: the deal stored
and returned has `Claimed = 3`, not 0. -/
theorem CreateDeal_claimed_not_reset (format : Time → String) :
    (CreateDeal format emptyDeals 0 (Except.ok ⟨"", 5, 0, 100, 3, ∅⟩)).1.lookup
        (GenerateId format 0) = some ⟨format 0, 5, 0, 100, 3, ∅⟩ ∧
    (CreateDeal format emptyDeals 0 (Except.ok ⟨"", 5, 0, 100, 3, ∅⟩)).2
      = ⟨StatusCreated, Body.json ⟨format 0, 5, 0, 100, 3, ∅⟩⟩ :=
  ⟨AList.lookup_insert _, rfl⟩

/-- C5, after the single request `POST /createDeal` with the body
`{"item": 5, "endTime": 100, "claimed": 3}`: the registered deal has `Claimed = 3`
and no claimant. -/
theorem count_differs_from_claimants (format : Time → String) :
    ¬ CountMatchesClaimants
      (run format emptyDeals [Op.create 0 (Except.ok ⟨"", 5, 0, 100, 3, ∅⟩)]) := by
  intro h
  have h1 := h (format 0) ⟨format 0, 5, 0, 100, 3, ∅⟩ (AList.lookup_insert _)
  simp at h1

/-! ## Claim count and item count -/

/-- C6 fails as stated: after a create with one item, a successful claim and an
update that lowers the item count to 0, the deal has `Claimed = 1 > Item = 0`; and
after a single create with the item count -1 the deal has `Claimed = 0 > Item = -1`. -/
theorem capacity_broken_by_update :
    ¬ CapacityRespected
      (run (fun _ => "1") emptyDeals
        [Op.create 0 (Except.ok ⟨"", 1, 0, 100, 0, ∅⟩),
         Op.claim 5 "1" "u",
         Op.update "1" (Except.ok ⟨0, 100⟩)]) ∧
    ¬ CapacityRespected
      (run (fun _ => "1") emptyDeals [Op.create 0 (Except.ok ⟨"", -1, 0, 100, 0, ∅⟩)]) := by
  constructor
  · intro h
    have h1 := h "1" ⟨"1", 0, 0, 100, 1, {"u"}⟩ (by decide)
    revert h1
    decide
  · intro h
    have h1 := h "1" ⟨"1", -1, 0, 100, 0, ∅⟩ (by decide)
    revert h1
    decide

theorem step_keeps_capacity (format : Time → String) (deals : Registry) (op : Op)
    (hop : op.keepsCapacity deals = true)
    (hinv : ∀ id deal, deals.lookup id = some deal → -2 ^ 63 ≤ deal.Claimed ∧ deal.Claimed ≤ deal.Item) :
    ∀ id deal, (step format deals op).1.lookup id = some deal →
      -2 ^ 63 ≤ deal.Claimed ∧ deal.Claimed ≤ deal.Item := by
  intro id1 deal1 h1
  cases op with
  | create now body =>
    cases body with
    | error err => exact hinv id1 deal1 h1
    | ok payload =>
      simp only [Op.keepsCapacity, Bool.and_eq_true, decide_eq_true_eq] at hop
      simp only [step, CreateDeal, lookup_insert_eq_ite] at h1
      split_ifs at h1 with hid
      · cases h1
        exact ⟨by simp [hop.1], by simp [hop.1, hop.2]⟩
      · exact hinv id1 deal1 h1
  | update id body =>
    cases body with
    | error err => exact hinv id1 deal1 h1
    | ok data =>
      cases hl : deals.lookup id with
      | none =>
        simp only [step, UpdateDeal, hl] at h1
        exact hinv id1 deal1 h1
      | some deal =>
        simp only [Op.keepsCapacity, hl, decide_eq_true_eq] at hop
        simp only [step, UpdateDeal, hl, lookup_insert_eq_ite] at h1
        split_ifs at h1 with hid
        · cases h1
          exact ⟨(hinv id deal hl).1, hop⟩
        · exact hinv id1 deal1 h1
  | claim now id userId =>
    cases hl : deals.lookup id with
    | none =>
      simp only [step, ClaimDeal, hl] at h1
      exact hinv id1 deal1 h1
    | some deal =>
      simp only [step, ClaimDeal, hl] at h1
      split_ifs at h1 with h2 h3 h4
      · exact hinv id1 deal1 h1
      · exact hinv id1 deal1 h1
      · exact hinv id1 deal1 h1
      · simp only [lookup_insert_eq_ite] at h1
        split_ifs at h1 with hid
        · cases h1
          have h0 := (hinv id deal hl).1
          show -2 ^ 63 ≤ wrapInt (deal.Claimed + 1) ∧ wrapInt (deal.Claimed + 1) ≤ deal.Item
          unfold wrapInt
          omega
        · exact hinv id1 deal1 h1
  | endDeal id =>
    cases hl : deals.lookup id with
    | none =>
      simp only [step, EndDeal, hl] at h1
      exact hinv id1 deal1 h1
    | some deal =>
      simp only [step, EndDeal, hl, lookup_erase_eq_ite] at h1
      split_ifs at h1 with hid
      exact hinv id1 deal1 h1

theorem run_keeps_capacity (format : Time → String) (ops : List Op) :
    ∀ deals : Registry, runKeepsCapacity format deals ops = true →
      (∀ id deal, deals.lookup id = some deal → -2 ^ 63 ≤ deal.Claimed ∧ deal.Claimed ≤ deal.Item) →
      ∀ id deal, (run format deals ops).lookup id = some deal →
        -2 ^ 63 ≤ deal.Claimed ∧ deal.Claimed ≤ deal.Item := by
  induction ops with
  | nil => intro deals _ hinv; exact hinv
  | cons op ops ih =>
    intro deals hops hinv
    simp only [runKeepsCapacity, Bool.and_eq_true] at hops
    exact ih _ hops.2 (step_keeps_capacity format deals op hops.1 hinv)

/-- C6 (amended): in every registry reached from the empty one by creates, updates,
claims and ends in which every create has a non-negative item count and no claim
count in its body, and every update gives an item count that is at least the claim
count of the deal it updates, every registered deal has `Claimed <= Item`. -/
theorem capacity_respected_of_keepsCapacity (format : Time → String) (ops : List Op)
    (hops : runKeepsCapacity format emptyDeals ops = true) :
    CapacityRespected (run format emptyDeals ops) := by
  intro id deal h
  refine (run_keeps_capacity format ops emptyDeals hops ?_ id deal h).2
  intro id1 deal1 h1
  simp [emptyDeals] at h1

/-- C6 (amended), at a create with two items, two claims, an update to two items
and a third claim. -/
theorem capacity_respected_of_keepsCapacity_witness :
    CapacityRespected
      (run (fun _ => "1") emptyDeals
        [Op.create 0 (Except.ok ⟨"", 2, 0, 100, 0, ∅⟩),
         Op.claim 5 "1" "u",
         Op.claim 6 "1" "v",
         Op.update "1" (Except.ok ⟨2, 200⟩),
         Op.claim 7 "1" "w"]) :=
  capacity_respected_of_keepsCapacity (fun _ => "1") _ (by decide)

/-! ## Update -/

/-- C10: for a decoded update body, `UpdateDeal` answers NotFound exactly when no
deal is registered under `id`; otherwise the deal stored under `id` afterwards has
the `Item` and `EndTime` of the body, whatever they were, and is the deal returned. -/
theorem UpdateDeal_overwrites (deals : Registry) (id : String) (data : UpdateDealData) :
    ((UpdateDeal deals id (Except.ok data)).2 = UpdateNotFound ↔ deals.lookup id = none) ∧
    ((UpdateDeal deals id (Except.ok data)).2.status = StatusNotFound ↔
      deals.lookup id = none) ∧
    (∀ deal, deals.lookup id = some deal →
      ∃ deal1, (UpdateDeal deals id (Except.ok data)).1.lookup id = some deal1 ∧
        deal1.Item = data.Items ∧ deal1.EndTime = data.EndTime ∧
        (UpdateDeal deals id (Except.ok data)).2 = ⟨StatusOK, Body.json deal1⟩) := by
  refine ⟨?_, ?_, ?_⟩
  · cases hl : deals.lookup id with
    | none => simp [UpdateDeal, hl, UpdateNotFound, httpError]
    | some deal => simp [UpdateDeal, hl, UpdateNotFound, writeDeal, StatusOK, StatusNotFound]
  · cases hl : deals.lookup id with
    | none => simp [UpdateDeal, hl, httpError]
    | some deal => simp [UpdateDeal, hl, writeDeal, StatusOK, StatusNotFound]
  · intro deal hl
    simp only [UpdateDeal, hl]
    exact ⟨_, AList.lookup_insert _, rfl, rfl, rfl⟩

/-- C10, at a deal with 1 item ending at 100, updated to 7 items ending at 50. -/
theorem UpdateDeal_overwrites_witness :
    ∃ deal1, (UpdateDeal (AList.singleton "a" ⟨"a", 1, 0, 100, 1, {"u"}⟩) "a"
        (Except.ok ⟨7, 50⟩)).1.lookup "a" = some deal1 ∧
      deal1.Item = 7 ∧ deal1.EndTime = 50 ∧
      (UpdateDeal (AList.singleton "a" ⟨"a", 1, 0, 100, 1, {"u"}⟩) "a" (Except.ok ⟨7, 50⟩)).2
        = ⟨StatusOK, Body.json deal1⟩ :=
  (UpdateDeal_overwrites (AList.singleton "a" ⟨"a", 1, 0, 100, 1, {"u"}⟩) "a" ⟨7, 50⟩).2.2
    ⟨"a", 1, 0, 100, 1, {"u"}⟩ (by decide)

/-! ## No double claim -/

theorem ClaimDeal_of_claimant (deals : Registry) (now : Time) (id userId : String) (deal : Deal)
    (hl : deals.lookup id = some deal) (hu : userId ∈ deal.UserId) :
    (ClaimDeal deals now id userId).2.status ≠ StatusOK ∧
      (ClaimDeal deals now id userId).1 = deals := by
  unfold ClaimDeal
  simp only [hl]
  split_ifs <;> simp [httpError, StatusGone, StatusOK]

theorem ClaimDeal_records_claimant (deals : Registry) (now : Time) (id userId : String)
    (hok : (ClaimDeal deals now id userId).2.status = StatusOK) :
    ∃ deal1, (ClaimDeal deals now id userId).1.lookup id = some deal1 ∧ userId ∈ deal1.UserId := by
  unfold ClaimDeal at hok ⊢
  cases hl : deals.lookup id with
  | none => simp [hl, httpError, StatusNotFound, StatusOK] at hok
  | some deal =>
    simp only [hl] at hok ⊢
    split_ifs at hok ⊢ with h1 h2 h3
    · simp [httpError, StatusGone, StatusOK] at hok
    · simp [httpError, StatusGone, StatusOK] at hok
    · simp [httpError, StatusGone, StatusOK] at hok
    · exact ⟨_, AList.lookup_insert _, Finset.mem_insert_self _ _⟩

theorem step_keeps_claimant (format : Time → String) (deals : Registry) (op : Op)
    (hop : op.isUpdateOrClaim = true) (id userId : String)
    (h : ∃ deal, deals.lookup id = some deal ∧ userId ∈ deal.UserId) :
    ∃ deal, (step format deals op).1.lookup id = some deal ∧ userId ∈ deal.UserId := by
  obtain ⟨deal, hl, hu⟩ := h
  cases op with
  | create now body => simp [Op.isUpdateOrClaim] at hop
  | endDeal id1 => simp [Op.isUpdateOrClaim] at hop
  | update id1 body =>
    cases body with
    | error err => exact ⟨deal, hl, hu⟩
    | ok data =>
      cases hl1 : deals.lookup id1 with
      | none =>
        simp only [step, UpdateDeal, hl1]
        exact ⟨deal, hl, hu⟩
      | some deal1 =>
        simp only [step, UpdateDeal, hl1, lookup_insert_eq_ite]
        by_cases hid : id = id1
        · subst hid
          rw [hl] at hl1
          cases hl1
          exact ⟨_, if_pos rfl, hu⟩
        · exact ⟨deal, by rw [if_neg hid]; exact hl, hu⟩
  | claim now id1 userId1 =>
    cases hl1 : deals.lookup id1 with
    | none =>
      simp only [step, ClaimDeal, hl1]
      exact ⟨deal, hl, hu⟩
    | some deal1 =>
      simp only [step, ClaimDeal, hl1]
      split_ifs with h1 h2 h3
      · exact ⟨deal, hl, hu⟩
      · exact ⟨deal, hl, hu⟩
      · exact ⟨deal, hl, hu⟩
      · simp only [lookup_insert_eq_ite]
        by_cases hid : id = id1
        · subst hid
          rw [hl] at hl1
          cases hl1
          exact ⟨_, if_pos rfl, Finset.mem_insert_of_mem hu⟩
        · exact ⟨deal, by rw [if_neg hid]; exact hl, hu⟩

theorem run_keeps_claimant (format : Time → String) (ops : List Op) (id userId : String) :
    ∀ deals : Registry, ops.all Op.isUpdateOrClaim = true →
      (∃ deal, deals.lookup id = some deal ∧ userId ∈ deal.UserId) →
      ∃ deal, (run format deals ops).lookup id = some deal ∧ userId ∈ deal.UserId := by
  induction ops with
  | nil => intro deals _ h; exact h
  | cons op ops ih =>
    intro deals hops h
    simp only [List.all_cons, Bool.and_eq_true] at hops
    exact ih _ hops.2 (step_keeps_claimant format deals op hops.1 id userId h)

theorem claimSuccesses_of_claimant (format : Time → String) (ops : List Op) (id userId : String) :
    ∀ deals : Registry, ops.all Op.isUpdateOrClaim = true →
      (∃ deal, deals.lookup id = some deal ∧ userId ∈ deal.UserId) →
      claimSuccesses format id userId deals ops = 0 := by
  induction ops with
  | nil => intro deals _ _; rfl
  | cons op ops ih =>
    intro deals hops h
    simp only [List.all_cons, Bool.and_eq_true] at hops
    have hrest := ih _ hops.2 (step_keeps_claimant format deals op hops.1 id userId h)
    simp only [claimSuccesses, hrest, add_zero]
    obtain ⟨deal, hl, hu⟩ := h
    cases op with
    | create now body => simp [Op.isClaimOf]
    | endDeal id1 => simp [Op.isClaimOf]
    | update id1 body => simp [Op.isClaimOf]
    | claim now id1 userId1 =>
      by_cases hc : id1 = id ∧ userId1 = userId
      · obtain ⟨rfl, rfl⟩ := hc
        have := (ClaimDeal_of_claimant deals now id1 userId1 deal hl hu).1
        simp [step, this]
      · have : Op.isClaimOf id userId (Op.claim now id1 userId1) = false := by
          simp only [Op.isClaimOf, Bool.and_eq_false_iff, decide_eq_false_iff_not]
          tauto
        simp [this]

theorem claimSuccesses_le_one (format : Time → String) (ops : List Op) (id userId : String) :
    ∀ deals : Registry, ops.all Op.isUpdateOrClaim = true →
      claimSuccesses format id userId deals ops ≤ 1 := by
  induction ops with
  | nil => intro deals _; simp [claimSuccesses]
  | cons op ops ih =>
    intro deals hops
    simp only [List.all_cons, Bool.and_eq_true] at hops
    simp only [claimSuccesses]
    split_ifs with hc
    · simp only [Bool.and_eq_true, decide_eq_true_eq] at hc
      cases op with
      | create now body => simp [Op.isClaimOf] at hc
      | endDeal id1 => simp [Op.isClaimOf] at hc
      | update id1 body => simp [Op.isClaimOf] at hc
      | claim now id1 userId1 =>
        obtain ⟨hc1, hc2⟩ := hc
        simp only [Op.isClaimOf, Bool.and_eq_true, decide_eq_true_eq] at hc1
        obtain ⟨rfl, rfl⟩ := hc1
        have h := ClaimDeal_records_claimant deals now id1 userId1 hc2
        have h0 := claimSuccesses_of_claimant format ops id1 userId1
          (step format deals (Op.claim now id1 userId1)).1 hops.2 h
        rw [h0]
    · have := ih (step format deals op).1 hops.2
      omega

/-- C7: once `ClaimDeal` has succeeded for `userId` on the deal `id`, after any
updates and claims (of any deals, by any users, at any clock readings) a further
claim of `id` by `userId` does not succeed and leaves the registry, so `Claimed`
too, as it is; and along any sequence of updates and claims at most one claim of
`id` by `userId` succeeds. -/
theorem no_double_claim :
    (∀ (format : Time → String) (deals : Registry) (now later : Time) (id userId : String)
      (ops : List Op),
      (ClaimDeal deals now id userId).2.status = StatusOK →
      ops.all Op.isUpdateOrClaim = true →
      (ClaimDeal (run format (ClaimDeal deals now id userId).1 ops) later id userId).2.status
          ≠ StatusOK ∧
        (ClaimDeal (run format (ClaimDeal deals now id userId).1 ops) later id userId).1
          = run format (ClaimDeal deals now id userId).1 ops) ∧
    (∀ (format : Time → String) (deals : Registry) (id userId : String) (ops : List Op),
      ops.all Op.isUpdateOrClaim = true → claimSuccesses format id userId deals ops ≤ 1) := by
  refine ⟨?_, fun format deals id userId ops hops =>
    claimSuccesses_le_one format ops id userId deals hops⟩
  intro format deals now later id userId ops hok hops
  obtain ⟨deal, hl, hu⟩ := run_keeps_claimant format ops id userId _ hops
    (ClaimDeal_records_claimant deals now id userId hok)
  exact ClaimDeal_of_claimant _ later id userId deal hl hu

/-- C7, at a deal with three items: `"u"` claims, the deal is extended to five
items and a later end time, `"v"` claims, and `"u"` claims again. -/
theorem no_double_claim_witness :
    (ClaimDeal (run (fun _ => "1")
        (ClaimDeal (AList.singleton "a" ⟨"a", 3, 0, 100, 0, ∅⟩) 5 "a" "u").1
        [Op.update "a" (Except.ok ⟨5, 200⟩), Op.claim 6 "a" "v"]) 7 "a" "u").2.status
          ≠ StatusOK ∧
      (ClaimDeal (run (fun _ => "1")
        (ClaimDeal (AList.singleton "a" ⟨"a", 3, 0, 100, 0, ∅⟩) 5 "a" "u").1
        [Op.update "a" (Except.ok ⟨5, 200⟩), Op.claim 6 "a" "v"]) 7 "a" "u").1
          = run (fun _ => "1")
        (ClaimDeal (AList.singleton "a" ⟨"a", 3, 0, 100, 0, ∅⟩) 5 "a" "u").1
        [Op.update "a" (Except.ok ⟨5, 200⟩), Op.claim 6 "a" "v"] :=
  no_double_claim.1 (fun _ => "1") (AList.singleton "a" ⟨"a", 3, 0, 100, 0, ∅⟩) 5 7 "a" "u"
    [Op.update "a" (Except.ok ⟨5, 200⟩), Op.claim 6 "a" "v"] (by decide) (by decide)

/-! ## A run of claims by distinct users -/

theorem ClaimDeal_free_slot (deals : Registry) (now : Time) (id userId : String) (deal : Deal)
    (hl : deals.lookup id = some deal) (ht : now ≤ deal.EndTime)
    (hc : deal.Claimed < deal.Item) (hlo : -2 ^ 63 ≤ deal.Claimed) (hhi : deal.Item < 2 ^ 63)
    (hu : userId ∉ deal.UserId) :
    ClaimDeal deals now id userId =
      (deals.insert id { deal with
          Claimed := deal.Claimed + 1, UserId := insert userId deal.UserId },
        ⟨StatusOK, Body.json { deal with
          Claimed := deal.Claimed + 1, UserId := insert userId deal.UserId }⟩) := by
  have hw : wrapInt (deal.Claimed + 1) = deal.Claimed + 1 :=
    wrapInt_of_inRange ⟨by omega, by omega⟩
  simp [ClaimDeal, hl, After, not_lt.mpr ht, not_le.mpr hc, hu, hw, writeDeal]

theorem ClaimDeal_no_slot (deals : Registry) (now : Time) (id userId : String) (deal : Deal)
    (hl : deals.lookup id = some deal) (ht : now ≤ deal.EndTime)
    (hc : deal.Item ≤ deal.Claimed) :
    ClaimDeal deals now id userId = (deals, SoldOut) := by
  simp [ClaimDeal, hl, After, not_lt.mpr ht, hc, SoldOut, httpError]

theorem countOK_cons (r : Response) (rs : List Response) :
    countOK (r :: rs) = countOK rs + if r.status = StatusOK then 1 else 0 := by
  simp [countOK, List.countP_cons]

theorem claimAll_counts (id : String) (cs : List (Time × String)) :
    ∀ (deals : Registry) (deal : Deal) (c k : Nat),
      deals.lookup id = some deal → deal.Item = (k : Int) → deal.Claimed = (c : Int) →
      c ≤ k → (k : Int) < 2 ^ 63 → (cs.map Prod.snd).Nodup →
      (∀ x ∈ cs, x.2 ∉ deal.UserId) → (∀ x ∈ cs, x.1 ≤ deal.EndTime) →
      countOK (claimAll deals id cs).2 = min (k - c) cs.length ∧
      (claimAll deals id cs).2.count SoldOut = cs.length - min (k - c) cs.length ∧
      ∃ d, (claimAll deals id cs).1.lookup id = some d ∧
        d.Claimed = ((c + min (k - c) cs.length : Nat) : Int) := by
  induction cs with
  | nil =>
    intro deals deal c k hl _ hc _ _ _ _ _
    exact ⟨by simp [claimAll, countOK], by simp [claimAll], deal, hl, by simp [hc]⟩
  | cons x cs ih =>
    intro deals deal c k hl hk hc hck hhi hnd hu ht
    simp only [List.map_cons, List.nodup_cons] at hnd
    have htx : x.1 ≤ deal.EndTime := ht x (List.mem_cons_self _ _)
    have hux : x.2 ∉ deal.UserId := hu x (List.mem_cons_self _ _)
    by_cases hfull : c = k
    · -- no slot is left: the claim is answered SoldOut and nothing changes
      subst hfull
      have hstep := ClaimDeal_no_slot deals x.1 id x.2 deal hl htx (by omega)
      obtain ⟨h1, h2, d, h3, h4⟩ := ih deals deal c c hl hk hc le_rfl hhi hnd.2
        (fun y hy => hu y (List.mem_cons_of_mem _ hy))
        (fun y hy => ht y (List.mem_cons_of_mem _ hy))
      simp only [claimAll, hstep, countOK_cons, List.count_cons, List.length_cons]
      refine ⟨?_, ?_, d, h3, ?_⟩
      · rw [h1]; simp [SoldOut, StatusGone, StatusOK]
      · rw [h2]; simp
      · rw [h4]; simp
    · -- a slot is left: the claim succeeds
      have hlt : c < k := lt_of_le_of_ne hck hfull
      have hstep := ClaimDeal_free_slot deals x.1 id x.2 deal hl htx (by omega) (by omega)
        (by omega) hux
      obtain ⟨h1, h2, d, h3, h4⟩ := ih
        (deals.insert id { deal with
          Claimed := deal.Claimed + 1, UserId := insert x.2 deal.UserId })
        { deal with Claimed := deal.Claimed + 1, UserId := insert x.2 deal.UserId }
        (c + 1) k (AList.lookup_insert _) hk (by simp [hc]) hlt hhi hnd.2
        (fun y hy => by
          simp only [Finset.mem_insert, not_or]
          refine ⟨?_, hu y (List.mem_cons_of_mem _ hy)⟩
          intro hy2
          exact hnd.1 (hy2 ▸ List.mem_map_of_mem Prod.snd hy))
        (fun y hy => ht y (List.mem_cons_of_mem _ hy))
      simp only [claimAll, hstep, countOK_cons, List.count_cons, List.length_cons]
      refine ⟨?_, ?_, d, h3, ?_⟩
      · rw [h1]
        simp only [if_true]
        omega
      · rw [h2]
        have : ((⟨StatusOK, Body.json { deal with
          Claimed := deal.Claimed + 1, UserId := insert x.2 deal.UserId }⟩ : Response) == SoldOut) = false := by
          simp [SoldOut]
        rw [this]
        simp only [Bool.false_eq_true, if_false]
        omega
      · rw [h4]
        congr 1
        omega

/-- C8: on a registered deal with `k >= 0` items, no claim and no claimant, `N > k`
claims by pairwise distinct users, served one after another at clock readings not
after `EndTime`, get exactly `k` successes and exactly `N - k` SoldOut answers, and
leave the deal with `Claimed = k`. -/
theorem claimAll_distinct_users (deals : Registry) (id : String) (deal : Deal) (k : Nat)
    (cs : List (Time × String))
    (hl : deals.lookup id = some deal) (hk : deal.Item = (k : Int)) (hhi : InRange deal.Item)
    (hc : deal.Claimed = 0) (hu : deal.UserId = ∅)
    (hnd : (cs.map Prod.snd).Nodup) (ht : ∀ x ∈ cs, x.1 ≤ deal.EndTime)
    (hN : k < cs.length) :
    countOK (claimAll deals id cs).2 = k ∧
    (claimAll deals id cs).2.count SoldOut = cs.length - k ∧
    ∃ d, (claimAll deals id cs).1.lookup id = some d ∧ d.Claimed = (k : Int) := by
  obtain ⟨h1, h2, d, h3, h4⟩ := claimAll_counts id cs deals deal 0 k hl hk (by simp [hc])
    (Nat.zero_le k) (hk ▸ hhi.2) hnd (fun x _ => by simp [hu]) ht
  have hmin : min (k - 0) cs.length = k := by
    rw [Nat.sub_zero]; exact min_eq_left (le_of_lt hN)
  rw [hmin] at h1 h2 h4
  exact ⟨h1, h2, d, h3, by simpa using h4⟩

/-- C8, at a deal with two items and the claims of `"u"`, `"v"`, `"w"` in this order. -/
theorem claimAll_distinct_users_witness :
    countOK (claimAll (AList.singleton "a" ⟨"a", 2, 0, 100, 0, ∅⟩) "a"
      [(5, "u"), (100, "v"), (7, "w")]).2 = 2 ∧
    (claimAll (AList.singleton "a" ⟨"a", 2, 0, 100, 0, ∅⟩) "a"
      [(5, "u"), (100, "v"), (7, "w")]).2.count SoldOut
      = [((5 : Time), "u"), (100, "v"), (7, "w")].length - 2 ∧
    ∃ d, (claimAll (AList.singleton "a" ⟨"a", 2, 0, 100, 0, ∅⟩) "a"
      [(5, "u"), (100, "v"), (7, "w")]).1.lookup "a" = some d ∧ d.Claimed = ((2 : Nat) : Int) :=
  claimAll_distinct_users (AList.singleton "a" ⟨"a", 2, 0, 100, 0, ∅⟩) "a"
    ⟨"a", 2, 0, 100, 0, ∅⟩ 2 [(5, "u"), (100, "v"), (7, "w")]
    (by decide) (by decide) (by decide) (by decide) (by decide) (by decide) (by decide)
    (by decide)

/-! ## Claim count and claimants, when no create sets a claim count -/

theorem step_keeps_count (format : Time → String) (deals : Registry) (op : Op)
    (hr : op.inRange = true) (hop : op.createsUnclaimed = true)
    (hinv : ∀ id deal, deals.lookup id = some deal →
      deal.Claimed = (deal.UserId.card : Int) ∧ deal.Item < 2 ^ 63) :
    ∀ id deal, (step format deals op).1.lookup id = some deal →
      deal.Claimed = (deal.UserId.card : Int) ∧ deal.Item < 2 ^ 63 := by
  intro id1 deal1 h1
  cases op with
  | create now body =>
    cases body with
    | error err => exact hinv id1 deal1 h1
    | ok payload =>
      simp only [Op.createsUnclaimed, decide_eq_true_eq] at hop
      simp only [Op.inRange, Bool.and_eq_true, decide_eq_true_eq] at hr
      simp only [step, CreateDeal, lookup_insert_eq_ite] at h1
      split_ifs at h1 with hid
      · cases h1
        exact ⟨by simp [hop], hr.1.2⟩
      · exact hinv id1 deal1 h1
  | update id body =>
    cases body with
    | error err => exact hinv id1 deal1 h1
    | ok data =>
      cases hl : deals.lookup id with
      | none =>
        simp only [step, UpdateDeal, hl] at h1
        exact hinv id1 deal1 h1
      | some deal =>
        simp only [Op.inRange, decide_eq_true_eq] at hr
        simp only [step, UpdateDeal, hl, lookup_insert_eq_ite] at h1
        split_ifs at h1 with hid
        · cases h1
          exact ⟨(hinv id deal hl).1, hr.2⟩
        · exact hinv id1 deal1 h1
  | claim now id userId =>
    cases hl : deals.lookup id with
    | none =>
      simp only [step, ClaimDeal, hl] at h1
      exact hinv id1 deal1 h1
    | some deal =>
      simp only [step, ClaimDeal, hl] at h1
      split_ifs at h1 with h2 h3 h4
      · exact hinv id1 deal1 h1
      · exact hinv id1 deal1 h1
      · exact hinv id1 deal1 h1
      · simp only [lookup_insert_eq_ite] at h1
        split_ifs at h1 with hid
        · cases h1
          obtain ⟨hc, hi⟩ := hinv id deal hl
          have hw : wrapInt (deal.Claimed + 1) = deal.Claimed + 1 :=
            wrapInt_of_inRange ⟨by omega, by omega⟩
          refine ⟨?_, hi⟩
          show wrapInt (deal.Claimed + 1) = ((insert userId deal.UserId).card : Int)
          rw [hw, Finset.card_insert_of_not_mem h4, hc]
          simp
        · exact hinv id1 deal1 h1
  | endDeal id =>
    cases hl : deals.lookup id with
    | none =>
      simp only [step, EndDeal, hl] at h1
      exact hinv id1 deal1 h1
    | some deal =>
      simp only [step, EndDeal, hl, lookup_erase_eq_ite] at h1
      split_ifs at h1 with hid
      exact hinv id1 deal1 h1

theorem run_keeps_count (format : Time → String) (ops : List Op) :
    ∀ deals : Registry, ops.all Op.inRange = true → ops.all Op.createsUnclaimed = true →
      (∀ id deal, deals.lookup id = some deal →
        deal.Claimed = (deal.UserId.card : Int) ∧ deal.Item < 2 ^ 63) →
      ∀ id deal, (run format deals ops).lookup id = some deal →
        deal.Claimed = (deal.UserId.card : Int) ∧ deal.Item < 2 ^ 63 := by
  induction ops with
  | nil => intro deals _ _ hinv; exact hinv
  | cons op ops ih =>
    intro deals hr hops hinv
    simp only [List.all_cons, Bool.and_eq_true] at hr hops
    exact ih _ hr.2 hops.2 (step_keeps_count format deals op hr.1 hops.1 hinv)

/-- The invariant of C5 holds along every sequence of requests in which no create
sets a claim count in its body: the claim count of every registered deal is the
number of its claimants. -/
theorem count_matches_when_creates_unclaimed (format : Time → String) (ops : List Op)
    (hr : ops.all Op.inRange = true) (hops : ops.all Op.createsUnclaimed = true) :
    CountMatchesClaimants (run format emptyDeals ops) := by
  intro id deal h
  refine (run_keeps_count format ops emptyDeals hr hops ?_ id deal h).1
  intro id1 deal1 h1
  simp [emptyDeals] at h1

/-! ## Update and end: what they keep and what they return -/

/-- C11: a successful `UpdateDeal` leaves `Claimed`, `UserId`, `Id` and `Price` of
the deal as they were, whatever the new item count is, also when it is smaller than
`Claimed`. -/
theorem UpdateDeal_keeps_claim_state (deals : Registry) (id : String) (data : UpdateDealData)
    (deal : Deal) (hl : deals.lookup id = some deal) :
    ∃ deal1, (UpdateDeal deals id (Except.ok data)).1.lookup id = some deal1 ∧
      (UpdateDeal deals id (Except.ok data)).2 = ⟨StatusOK, Body.json deal1⟩ ∧
      deal1.Claimed = deal.Claimed ∧ deal1.UserId = deal.UserId ∧
      deal1.Id = deal.Id ∧ deal1.Price = deal.Price := by
  simp only [UpdateDeal, hl]
  exact ⟨_, AList.lookup_insert _, rfl, rfl, rfl, rfl, rfl⟩

/-- C11, at a deal with two claims whose item count is lowered to 1. -/
theorem UpdateDeal_keeps_claim_state_witness :
    ∃ deal1, (UpdateDeal (AList.singleton "a" ⟨"a", 3, 9, 100, 2, {"u", "v"}⟩) "a"
        (Except.ok ⟨1, 50⟩)).1.lookup "a" = some deal1 ∧
      (UpdateDeal (AList.singleton "a" ⟨"a", 3, 9, 100, 2, {"u", "v"}⟩) "a"
        (Except.ok ⟨1, 50⟩)).2 = ⟨StatusOK, Body.json deal1⟩ ∧
      deal1.Claimed = 2 ∧ deal1.UserId = {"u", "v"} ∧ deal1.Id = "a" ∧ deal1.Price = 9 :=
  UpdateDeal_keeps_claim_state (AList.singleton "a" ⟨"a", 3, 9, 100, 2, {"u", "v"}⟩) "a"
    ⟨1, 50⟩ ⟨"a", 3, 9, 100, 2, {"u", "v"}⟩ (by decide)

/-- C12: `EndDeal` answers NotFound exactly when no deal is registered under `id`;
otherwise it returns the deal that was stored under `id` before the call, equal in
every field. -/
theorem EndDeal_returns_stored (deals : Registry) (id : String) :
    ((EndDeal deals id).2 = NotFound ↔ deals.lookup id = none) ∧
    ((EndDeal deals id).2.status = StatusNotFound ↔ deals.lookup id = none) ∧
    (∀ deal, deals.lookup id = some deal →
      (EndDeal deals id).2 = ⟨StatusOK, Body.json deal⟩) := by
  refine ⟨?_, ?_, ?_⟩
  · cases hl : deals.lookup id with
    | none => simp [EndDeal, hl, NotFound, httpError]
    | some deal => simp [EndDeal, hl, NotFound, writeDeal, StatusOK, StatusNotFound]
  · cases hl : deals.lookup id with
    | none => simp [EndDeal, hl, httpError]
    | some deal => simp [EndDeal, hl, writeDeal, StatusOK, StatusNotFound]
  · intro deal hl
    simp [EndDeal, hl, writeDeal]

/-- C12, at a deal with one claim. -/
theorem EndDeal_returns_stored_witness :
    (EndDeal (AList.singleton "a" ⟨"a", 3, 9, 100, 1, {"u"}⟩) "a").2
      = ⟨StatusOK, Body.json ⟨"a", 3, 9, 100, 1, {"u"}⟩⟩ :=
  (EndDeal_returns_stored (AList.singleton "a" ⟨"a", 3, 9, 100, 1, {"u"}⟩) "a").2.2
    ⟨"a", 3, 9, 100, 1, {"u"}⟩ (by decide)

/-! ## Requests on one deal and the other deals -/

/-- C19: a claim, an update or an end of the deal `id`, successful or not, leaves
every other id registered exactly when it was, with the same deal under it. -/
theorem other_deals_untouched (deals : Registry) (id other : String) (hne : other ≠ id) :
    (∀ (now : Time) (userId : String),
      (ClaimDeal deals now id userId).1.lookup other = deals.lookup other) ∧
    (∀ body : Except String UpdateDealData,
      (UpdateDeal deals id body).1.lookup other = deals.lookup other) ∧
    (EndDeal deals id).1.lookup other = deals.lookup other := by
  refine ⟨?_, ?_, ?_⟩
  · intro now userId
    unfold ClaimDeal
    cases hl : deals.lookup id with
    | none => rfl
    | some deal =>
      simp only []
      split_ifs
      · rfl
      · rfl
      · rfl
      · exact AList.lookup_insert_ne hne
  · intro body
    unfold UpdateDeal
    cases body with
    | error err => rfl
    | ok data =>
      cases hl : deals.lookup id with
      | none => rfl
      | some deal => exact AList.lookup_insert_ne hne
  · unfold EndDeal
    cases hl : deals.lookup id with
    | none => rfl
    | some deal => exact AList.lookup_erase_ne hne

/-- C19, at a registry with the deals `"a"` and `"b"` and a successful claim of `"a"`. -/
theorem other_deals_untouched_witness :
    (ClaimDeal ((AList.singleton "a" ⟨"a", 3, 9, 100, 1, {"u"}⟩ : Registry).insert "b"
        ⟨"b", 1, 2, 50, 0, ∅⟩) 5 "a" "v").1.lookup "b"
      = ((AList.singleton "a" ⟨"a", 3, 9, 100, 1, {"u"}⟩ : Registry).insert "b"
        ⟨"b", 1, 2, 50, 0, ∅⟩).lookup "b" :=
  (other_deals_untouched ((AList.singleton "a" ⟨"a", 3, 9, 100, 1, {"u"}⟩ : Registry).insert "b"
    ⟨"b", 1, 2, 50, 0, ∅⟩) "a" "b" (by decide)).1 5 "v"

/-! ## After an end -/

theorem step_keeps_absent (format : Time → String) (deals : Registry) (op : Op) (id : String)
    (hop : op.createsId format id = false) (h : deals.lookup id = none) :
    (step format deals op).1.lookup id = none := by
  cases op with
  | create now body =>
    cases body with
    | error err => exact h
    | ok payload =>
      simp only [Op.createsId, decide_eq_false_iff_not] at hop
      simp only [step, CreateDeal, lookup_insert_eq_ite]
      rw [if_neg (fun hid => hop hid.symm)]
      exact h
  | update id1 body =>
    cases body with
    | error err => exact h
    | ok data =>
      cases hl : deals.lookup id1 with
      | none => simp only [step, UpdateDeal, hl]; exact h
      | some deal =>
        simp only [step, UpdateDeal, hl, lookup_insert_eq_ite]
        split_ifs with hid
        · subst hid; rw [h] at hl; cases hl
        · exact h
  | claim now id1 userId =>
    cases hl : deals.lookup id1 with
    | none => simp only [step, ClaimDeal, hl]; exact h
    | some deal =>
      simp only [step, ClaimDeal, hl]
      split_ifs
      · exact h
      · exact h
      · exact h
      · simp only [lookup_insert_eq_ite]
        split_ifs with hid
        · subst hid; rw [h] at hl; cases hl
        · exact h
  | endDeal id1 =>
    cases hl : deals.lookup id1 with
    | none => simp only [step, EndDeal, hl]; exact h
    | some deal =>
      simp only [step, EndDeal, hl, lookup_erase_eq_ite]
      split_ifs
      · rfl
      · exact h

theorem run_keeps_absent (format : Time → String) (ops : List Op) (id : String) :
    ∀ deals : Registry, ops.all (fun op => !op.createsId format id) = true →
      deals.lookup id = none → (run format deals ops).lookup id = none := by
  induction ops with
  | nil => intro deals _ h; exact h
  | cons op ops ih =>
    intro deals hops h
    simp only [List.all_cons, Bool.and_eq_true, Bool.not_eq_true'] at hops
    exact ih _ (by simpa using hops.2) (step_keeps_absent format deals op id hops.1 h)

theorem EndDeal_removes (deals : Registry) (id : String) :
    (EndDeal deals id).1.lookup id = none := by
  unfold EndDeal
  cases hl : deals.lookup id with
  | none => exact hl
  | some deal => exact AList.lookup_erase _ _

/-- C13: after `EndDeal` on `id`, and after any further requests none of which
creates a deal under `id`, the id is not registered: every claim, update and end of
`id` is answered NotFound, for every user, body and clock reading. -/
theorem ended_deal_not_found (format : Time → String) (deals : Registry) (id : String)
    (ops : List Op) (hops : ops.all (fun op => !op.createsId format id) = true) :
    (run format (EndDeal deals id).1 ops).lookup id = none ∧
    (∀ (now : Time) (userId : String),
      (ClaimDeal (run format (EndDeal deals id).1 ops) now id userId).2 = NotFound) ∧
    (∀ data : UpdateDealData,
      (UpdateDeal (run format (EndDeal deals id).1 ops) id (Except.ok data)).2
        = UpdateNotFound) ∧
    (EndDeal (run format (EndDeal deals id).1 ops) id).2 = NotFound := by
  have h := run_keeps_absent format ops id _ hops (EndDeal_removes deals id)
  have key : ∀ deals1 : Registry, deals1.lookup id = none →
      (∀ (now : Time) (userId : String), (ClaimDeal deals1 now id userId).2 = NotFound) ∧
      (∀ data : UpdateDealData, (UpdateDeal deals1 id (Except.ok data)).2 = UpdateNotFound) ∧
      (EndDeal deals1 id).2 = NotFound := by
    intro deals1 h1
    refine ⟨?_, ?_, ?_⟩
    · intro now userId
      simp [ClaimDeal, h1, NotFound, httpError]
    · intro data
      simp [UpdateDeal, h1, UpdateNotFound, httpError]
    · simp [EndDeal, h1, NotFound, httpError]
  exact ⟨h, key _ h⟩

/-- C13, at a deal `"a"` that is ended, followed by a create under another id and a
claim of `"a"`. -/
theorem ended_deal_not_found_witness :
    (run (fun _ => "b") (EndDeal (AList.singleton "a" ⟨"a", 3, 9, 100, 1, {"u"}⟩) "a").1
      [Op.create 7 (Except.ok ⟨"", 1, 0, 100, 0, ∅⟩), Op.claim 8 "a" "v"]).lookup "a" = none ∧
    (∀ (now : Time) (userId : String),
      (ClaimDeal (run (fun _ => "b")
        (EndDeal (AList.singleton "a" ⟨"a", 3, 9, 100, 1, {"u"}⟩) "a").1
        [Op.create 7 (Except.ok ⟨"", 1, 0, 100, 0, ∅⟩), Op.claim 8 "a" "v"])
        now "a" userId).2 = NotFound) ∧
    (∀ data : UpdateDealData,
      (UpdateDeal (run (fun _ => "b")
        (EndDeal (AList.singleton "a" ⟨"a", 3, 9, 100, 1, {"u"}⟩) "a").1
        [Op.create 7 (Except.ok ⟨"", 1, 0, 100, 0, ∅⟩), Op.claim 8 "a" "v"])
        "a" (Except.ok data)).2 = UpdateNotFound) ∧
    (EndDeal (run (fun _ => "b")
        (EndDeal (AList.singleton "a" ⟨"a", 3, 9, 100, 1, {"u"}⟩) "a").1
        [Op.create 7 (Except.ok ⟨"", 1, 0, 100, 0, ∅⟩), Op.claim 8 "a" "v"]) "a").2
      = NotFound :=
  ended_deal_not_found (fun _ => "b") (AList.singleton "a" ⟨"a", 3, 9, 100, 1, {"u"}⟩) "a"
    [Op.create 7 (Except.ok ⟨"", 1, 0, 100, 0, ∅⟩), Op.claim 8 "a" "v"] (by decide)

/-! ## Ids and keys -/

theorem step_keeps_idMatchesKey (format : Time → String) (deals : Registry) (op : Op)
    (hinv : IdMatchesKey deals) : IdMatchesKey (step format deals op).1 := by
  intro id1 deal1 h1
  cases op with
  | create now body =>
    cases body with
    | error err => exact hinv id1 deal1 h1
    | ok payload =>
      simp only [step, CreateDeal, lookup_insert_eq_ite] at h1
      split_ifs at h1 with hid
      · cases h1
        exact hid.symm
      · exact hinv id1 deal1 h1
  | update id body =>
    cases body with
    | error err => exact hinv id1 deal1 h1
    | ok data =>
      cases hl : deals.lookup id with
      | none =>
        simp only [step, UpdateDeal, hl] at h1
        exact hinv id1 deal1 h1
      | some deal =>
        simp only [step, UpdateDeal, hl, lookup_insert_eq_ite] at h1
        split_ifs at h1 with hid
        · cases h1
          subst hid
          exact hinv id1 deal hl
        · exact hinv id1 deal1 h1
  | claim now id userId =>
    cases hl : deals.lookup id with
    | none =>
      simp only [step, ClaimDeal, hl] at h1
      exact hinv id1 deal1 h1
    | some deal =>
      simp only [step, ClaimDeal, hl] at h1
      split_ifs at h1 with h2 h3 h4
      · exact hinv id1 deal1 h1
      · exact hinv id1 deal1 h1
      · exact hinv id1 deal1 h1
      · simp only [lookup_insert_eq_ite] at h1
        split_ifs at h1 with hid
        · cases h1
          subst hid
          exact hinv id1 deal hl
        · exact hinv id1 deal1 h1
  | endDeal id =>
    cases hl : deals.lookup id with
    | none =>
      simp only [step, EndDeal, hl] at h1
      exact hinv id1 deal1 h1
    | some deal =>
      simp only [step, EndDeal, hl, lookup_erase_eq_ite] at h1
      split_ifs at h1 with hid
      exact hinv id1 deal1 h1

theorem run_keeps_idMatchesKey (format : Time → String) (ops : List Op) :
    ∀ deals : Registry, IdMatchesKey deals → IdMatchesKey (run format deals ops) := by
  induction ops with
  | nil => intro deals h; exact h
  | cons op ops ih =>
    intro deals h
    exact ih _ (step_keeps_idMatchesKey format deals op h)

/-- C14: in every registry reached from the empty one by creates, updates, claims
and ends, the field `Id` of every registered deal is the key it is registered under,
so two deals registered under different keys have different ids. -/
theorem ids_unique (format : Time → String) (ops : List Op) :
    IdMatchesKey (run format emptyDeals ops) ∧
    (∀ (id1 id2 : String) (deal1 deal2 : Deal), id1 ≠ id2 →
      (run format emptyDeals ops).lookup id1 = some deal1 →
      (run format emptyDeals ops).lookup id2 = some deal2 → deal1.Id ≠ deal2.Id) := by
  have h : IdMatchesKey (run format emptyDeals ops) :=
    run_keeps_idMatchesKey format ops emptyDeals (by
      intro id deal hl
      simp [emptyDeals] at hl)
  refine ⟨h, ?_⟩
  intro id1 id2 deal1 deal2 hne h1 h2
  rw [h id1 deal1 h1, h id2 deal2 h2]
  exact hne

/-! ## Create under an id that is in use -/

theorem size_insert_of_registered (deals : Registry) (id : String) (deal old : Deal)
    (hl : deals.lookup id = some old) : size (deals.insert id deal) = size deals := by
  have hmem : id ∈ deals.keys := by
    rw [← AList.mem_keys, ← AList.lookup_isSome, hl]
    rfl
  have hpos : 0 < deals.keys.length := List.length_pos_of_mem hmem
  simp only [size, AList.keys_insert, List.length_cons, List.length_erase_of_mem hmem]
  omega

/-- C20: the id `CreateDeal` gives a deal is `GenerateId` of the clock reading and
nothing else, and the handler does not look it up: when a deal is already registered
under it, that deal is replaced by the new one (built from the body alone), the
number of registered deals stays the same, and every other deal is unchanged. -/
theorem CreateDeal_replaces (format : Time → String) (deals : Registry) (now : Time)
    (payload old : Deal) (hl : deals.lookup (GenerateId format now) = some old) :
    (CreateDeal format deals now (Except.ok payload)).2
      = ⟨StatusCreated, Body.json { payload with Id := GenerateId format now, UserId := ∅ }⟩ ∧
    (CreateDeal format deals now (Except.ok payload)).1.lookup (GenerateId format now)
      = some { payload with Id := GenerateId format now, UserId := ∅ } ∧
    size (CreateDeal format deals now (Except.ok payload)).1 = size deals ∧
    (∀ other, other ≠ GenerateId format now →
      (CreateDeal format deals now (Except.ok payload)).1.lookup other = deals.lookup other) := by
  refine ⟨rfl, AList.lookup_insert _, ?_, ?_⟩
  · exact size_insert_of_registered deals _ _ old hl
  · intro other hne
    exact AList.lookup_insert_ne hne

/-- C20, at two creates served at the same clock reading: the second replaces the
deal of the first, which had 3 items and ended at 100. -/
theorem CreateDeal_replaces_witness :
    (CreateDeal (fun _ => "1")
        (CreateDeal (fun _ => "1") emptyDeals 0 (Except.ok ⟨"", 3, 9, 100, 0, ∅⟩)).1 0
        (Except.ok ⟨"", 1, 2, 50, 0, ∅⟩)).2
      = ⟨StatusCreated, Body.json { (⟨"", 1, 2, 50, 0, ∅⟩ : Deal) with
          Id := GenerateId (fun _ => "1") 0, UserId := ∅ }⟩ ∧
    (CreateDeal (fun _ => "1")
        (CreateDeal (fun _ => "1") emptyDeals 0 (Except.ok ⟨"", 3, 9, 100, 0, ∅⟩)).1 0
        (Except.ok ⟨"", 1, 2, 50, 0, ∅⟩)).1.lookup (GenerateId (fun _ => "1") 0)
      = some { (⟨"", 1, 2, 50, 0, ∅⟩ : Deal) with
          Id := GenerateId (fun _ => "1") 0, UserId := ∅ } ∧
    size (CreateDeal (fun _ => "1")
        (CreateDeal (fun _ => "1") emptyDeals 0 (Except.ok ⟨"", 3, 9, 100, 0, ∅⟩)).1 0
        (Except.ok ⟨"", 1, 2, 50, 0, ∅⟩)).1
      = size (CreateDeal (fun _ => "1") emptyDeals 0 (Except.ok ⟨"", 3, 9, 100, 0, ∅⟩)).1 ∧
    (∀ other, other ≠ GenerateId (fun _ => "1") 0 →
      (CreateDeal (fun _ => "1")
        (CreateDeal (fun _ => "1") emptyDeals 0 (Except.ok ⟨"", 3, 9, 100, 0, ∅⟩)).1 0
        (Except.ok ⟨"", 1, 2, 50, 0, ∅⟩)).1.lookup other
      = (CreateDeal (fun _ => "1") emptyDeals 0
          (Except.ok ⟨"", 3, 9, 100, 0, ∅⟩)).1.lookup other) :=
  CreateDeal_replaces (fun _ => "1")
    (CreateDeal (fun _ => "1") emptyDeals 0 (Except.ok ⟨"", 3, 9, 100, 0, ∅⟩)).1 0
    ⟨"", 1, 2, 50, 0, ∅⟩ ⟨"1", 3, 9, 100, 0, ∅⟩ (by decide)

/-! ## The scenario with one item -/

/-- C16: a create with one item and no claim count, then, at clock readings not
after `EndTime`, a claim by `userA`, a claim by `userB`, a second claim by `userA`,
then an end and a claim by `userC`, are answered in turn: the new deal with
`Claimed = 0`; the deal with `Claimed = 1`; SoldOut; SoldOut (not AlreadyClaimed);
the deal with `Claimed = 1`; NotFound. -/
theorem scenario_one_item (format : Time → String) (deals : Registry) (payload : Deal)
    (t0 t1 t2 t3 t4 : Time) (userA userB userC : String)
    (hItem : payload.Item = 1) (hClaimed : payload.Claimed = 0)
    (h1 : t1 ≤ payload.EndTime) (h2 : t2 ≤ payload.EndTime) (h3 : t3 ≤ payload.EndTime) :
    responses format deals
      [Op.create t0 (Except.ok payload),
       Op.claim t1 (GenerateId format t0) userA,
       Op.claim t2 (GenerateId format t0) userB,
       Op.claim t3 (GenerateId format t0) userA,
       Op.endDeal (GenerateId format t0),
       Op.claim t4 (GenerateId format t0) userC]
    = [⟨StatusCreated, Body.json
          { payload with Id := GenerateId format t0, Claimed := 0, UserId := ∅ }⟩,
       ⟨StatusOK, Body.json
          { payload with Id := GenerateId format t0, Claimed := 1, UserId := {userA} }⟩,
       SoldOut,
       SoldOut,
       ⟨StatusOK, Body.json
          { payload with Id := GenerateId format t0, Claimed := 1, UserId := {userA} }⟩,
       NotFound] := by
  obtain ⟨pid, pitem, pprice, pend, pclaimed, pusers⟩ := payload
  simp only at hItem hClaimed h1 h2 h3
  subst hItem hClaimed
  have hw : wrapInt 1 = 1 := by decide
  simp [responses, step, CreateDeal, ClaimDeal, EndDeal, After, not_lt.mpr h1, not_lt.mpr h2,
    not_lt.mpr h3, hw, writeDeal, httpError, SoldOut, NotFound]

/-- C16, with the formatter that gives the id `"1"`, end time 100 and the users
`"userA"`, `"userB"`, `"userC"`. -/
theorem scenario_one_item_witness :
    responses (fun _ => "1") emptyDeals
      [Op.create 0 (Except.ok ⟨"", 1, 9, 100, 0, ∅⟩),
       Op.claim 1 (GenerateId (fun _ => "1") 0) "userA",
       Op.claim 2 (GenerateId (fun _ => "1") 0) "userB",
       Op.claim 3 (GenerateId (fun _ => "1") 0) "userA",
       Op.endDeal (GenerateId (fun _ => "1") 0),
       Op.claim 4 (GenerateId (fun _ => "1") 0) "userC"]
    = [⟨StatusCreated, Body.json
          { (⟨"", 1, 9, 100, 0, ∅⟩ : Deal) with
            Id := GenerateId (fun _ => "1") 0, Claimed := 0, UserId := ∅ }⟩,
       ⟨StatusOK, Body.json
          { (⟨"", 1, 9, 100, 0, ∅⟩ : Deal) with
            Id := GenerateId (fun _ => "1") 0, Claimed := 1, UserId := {"userA"} }⟩,
       SoldOut,
       SoldOut,
       ⟨StatusOK, Body.json
          { (⟨"", 1, 9, 100, 0, ∅⟩ : Deal) with
            Id := GenerateId (fun _ => "1") 0, Claimed := 1, UserId := {"userA"} }⟩,
       NotFound] :=
  scenario_one_item (fun _ => "1") emptyDeals ⟨"", 1, 9, 100, 0, ∅⟩ 0 1 2 3 4
    "userA" "userB" "userC" rfl rfl (by decide) (by decide) (by decide)

/-! ## The claim count over one request -/

/-- C15 fails as stated: after a create and a successful claim, served with the deal
`"1"` at `Claimed = 1`, a second create at the same clock reading generates the same
id and replaces the deal by one with `Claimed = 0`. -/
theorem claimed_decreased_by_create :
    ¬ ClaimedNotDecreased
      (run (fun _ => "1") emptyDeals
        [Op.create 0 (Except.ok ⟨"", 2, 0, 100, 0, ∅⟩), Op.claim 5 "1" "u"])
      (step (fun _ => "1")
        (run (fun _ => "1") emptyDeals
          [Op.create 0 (Except.ok ⟨"", 2, 0, 100, 0, ∅⟩), Op.claim 5 "1" "u"])
        (Op.create 0 (Except.ok ⟨"", 2, 0, 100, 0, ∅⟩))).1 := by
  intro h
  have h1 := h "1" ⟨"1", 2, 0, 100, 1, {"u"}⟩ ⟨"1", 2, 0, 100, 0, ∅⟩ (by decide) (by decide)
  revert h1
  decide

theorem step_keeps_range (format : Time → String) (deals : Registry) (op : Op)
    (hr : op.inRange = true)
    (hinv : ∀ id deal, deals.lookup id = some deal →
      -2 ^ 63 ≤ deal.Claimed ∧ deal.Item < 2 ^ 63) :
    ∀ id deal, (step format deals op).1.lookup id = some deal →
      -2 ^ 63 ≤ deal.Claimed ∧ deal.Item < 2 ^ 63 := by
  intro id1 deal1 h1
  cases op with
  | create now body =>
    cases body with
    | error err => exact hinv id1 deal1 h1
    | ok payload =>
      simp only [Op.inRange, Bool.and_eq_true, decide_eq_true_eq] at hr
      simp only [step, CreateDeal, lookup_insert_eq_ite] at h1
      split_ifs at h1 with hid
      · cases h1
        exact ⟨hr.2.1, hr.1.2⟩
      · exact hinv id1 deal1 h1
  | update id body =>
    cases body with
    | error err => exact hinv id1 deal1 h1
    | ok data =>
      cases hl : deals.lookup id with
      | none =>
        simp only [step, UpdateDeal, hl] at h1
        exact hinv id1 deal1 h1
      | some deal =>
        simp only [Op.inRange, decide_eq_true_eq] at hr
        simp only [step, UpdateDeal, hl, lookup_insert_eq_ite] at h1
        split_ifs at h1 with hid
        · cases h1
          exact ⟨(hinv id deal hl).1, hr.2⟩
        · exact hinv id1 deal1 h1
  | claim now id userId =>
    cases hl : deals.lookup id with
    | none =>
      simp only [step, ClaimDeal, hl] at h1
      exact hinv id1 deal1 h1
    | some deal =>
      simp only [step, ClaimDeal, hl] at h1
      split_ifs at h1 with h2 h3 h4
      · exact hinv id1 deal1 h1
      · exact hinv id1 deal1 h1
      · exact hinv id1 deal1 h1
      · simp only [lookup_insert_eq_ite] at h1
        split_ifs at h1 with hid
        · cases h1
          refine ⟨?_, (hinv id deal hl).2⟩
          show -2 ^ 63 ≤ wrapInt (deal.Claimed + 1)
          unfold wrapInt
          omega
        · exact hinv id1 deal1 h1
  | endDeal id =>
    cases hl : deals.lookup id with
    | none =>
      simp only [step, EndDeal, hl] at h1
      exact hinv id1 deal1 h1
    | some deal =>
      simp only [step, EndDeal, hl, lookup_erase_eq_ite] at h1
      split_ifs at h1 with hid
      exact hinv id1 deal1 h1

theorem run_keeps_range (format : Time → String) (ops : List Op) :
    ∀ deals : Registry, ops.all Op.inRange = true →
      (∀ id deal, deals.lookup id = some deal →
        -2 ^ 63 ≤ deal.Claimed ∧ deal.Item < 2 ^ 63) →
      ∀ id deal, (run format deals ops).lookup id = some deal →
        -2 ^ 63 ≤ deal.Claimed ∧ deal.Item < 2 ^ 63 := by
  induction ops with
  | nil => intro deals _ hinv; exact hinv
  | cons op ops ih =>
    intro deals hr hinv
    simp only [List.all_cons, Bool.and_eq_true] at hr
    exact ih _ hr.2 (step_keeps_range format deals op hr.1 hinv)

theorem step_claimed_not_decreased (format : Time → String) (deals : Registry) (op : Op)
    (hop : op.replacesDeal format deals = false)
    (hinv : ∀ id deal, deals.lookup id = some deal →
      -2 ^ 63 ≤ deal.Claimed ∧ deal.Item < 2 ^ 63) :
    ClaimedNotDecreased deals (step format deals op).1 := by
  intro id1 deal0 deal1 h0 h1
  cases op with
  | create now body =>
    cases body with
    | error err =>
      simp only [step, CreateDeal] at h1
      rw [h0] at h1; cases h1; exact le_rfl
    | ok payload =>
      simp only [Op.replacesDeal] at hop
      simp only [step, CreateDeal, lookup_insert_eq_ite] at h1
      split_ifs at h1 with hid
      · subst hid
        rw [h0] at hop
        simp at hop
      · rw [h0] at h1; cases h1; exact le_rfl
  | update id body =>
    cases body with
    | error err =>
      simp only [step, UpdateDeal] at h1
      rw [h0] at h1; cases h1; exact le_rfl
    | ok data =>
      cases hl : deals.lookup id with
      | none =>
        simp only [step, UpdateDeal, hl] at h1
        rw [h0] at h1; cases h1; exact le_rfl
      | some deal =>
        simp only [step, UpdateDeal, hl, lookup_insert_eq_ite] at h1
        split_ifs at h1 with hid
        · subst hid
          rw [h0] at hl; cases hl
          cases h1
          exact le_rfl
        · rw [h0] at h1; cases h1; exact le_rfl
  | claim now id userId =>
    cases hl : deals.lookup id with
    | none =>
      simp only [step, ClaimDeal, hl] at h1
      rw [h0] at h1; cases h1; exact le_rfl
    | some deal =>
      simp only [step, ClaimDeal, hl] at h1
      split_ifs at h1 with h2 h3 h4
      · rw [h0] at h1; cases h1; exact le_rfl
      · rw [h0] at h1; cases h1; exact le_rfl
      · rw [h0] at h1; cases h1; exact le_rfl
      · simp only [lookup_insert_eq_ite] at h1
        split_ifs at h1 with hid
        · subst hid
          rw [h0] at hl; cases hl
          cases h1
          obtain ⟨hlo, hhi⟩ := hinv id1 deal0 h0
          have hw : wrapInt (deal0.Claimed + 1) = deal0.Claimed + 1 :=
            wrapInt_of_inRange ⟨by omega, by omega⟩
          show deal0.Claimed ≤ wrapInt (deal0.Claimed + 1)
          omega
        · rw [h0] at h1; cases h1; exact le_rfl
  | endDeal id =>
    cases hl : deals.lookup id with
    | none =>
      simp only [step, EndDeal, hl] at h1
      rw [h0] at h1; cases h1; exact le_rfl
    | some deal =>
      simp only [step, EndDeal, hl, lookup_erase_eq_ite] at h1
      split_ifs at h1 with hid
      rw [h0] at h1; cases h1; exact le_rfl

/-- C15 (amended): in every registry reached from the empty one by creates,
updates, claims and ends, and for every single request other than a create whose
generated id is already registered, every deal registered both before and after the
request has a claim count after it that is at least its claim count before; the
integers of the request bodies are values of Go's `int`. -/
theorem claimed_never_decreases (format : Time → String) (ops : List Op) (op : Op)
    (hr : ops.all Op.inRange = true)
    (hop : op.replacesDeal format (run format emptyDeals ops) = false) :
    ClaimedNotDecreased (run format emptyDeals ops)
      (step format (run format emptyDeals ops) op).1 := by
  refine step_claimed_not_decreased format _ op hop ?_
  refine run_keeps_range format ops emptyDeals hr ?_
  intro id deal h
  simp [emptyDeals] at h

/-- C15 (amended), at a deal with one claim and a second, successful claim. -/
theorem claimed_never_decreases_witness :
    ClaimedNotDecreased
      (run (fun _ => "1") emptyDeals
        [Op.create 0 (Except.ok ⟨"", 2, 0, 100, 0, ∅⟩), Op.claim 5 "1" "u"])
      (step (fun _ => "1")
        (run (fun _ => "1") emptyDeals
          [Op.create 0 (Except.ok ⟨"", 2, 0, 100, 0, ∅⟩), Op.claim 5 "1" "u"])
        (Op.claim 6 "1" "v")).1 :=
  claimed_never_decreases (fun _ => "1")
    [Op.create 0 (Except.ok ⟨"", 2, 0, 100, 0, ∅⟩), Op.claim 5 "1" "u"] (Op.claim 6 "1" "v")
    (by decide) (by decide)

/-! ## What the serialized deal shows -/

/-- The encoded deal determines the claimants: two deals with the same encoding have
the same `UserId`. -/
theorem encodeDeal_determines_claimants (deal1 deal2 : Deal)
    (h : encodeDeal deal1 = encodeDeal deal2) : deal1.UserId = deal2.UserId := by
  simp only [encodeDeal, List.cons.injEq, Prod.mk.injEq, JsonValue.trueMap.injEq] at h
  exact h.2.2.2.2.2.1.2

/-- C17, at the claim of `"bob"` on a deal that `"alice"` has claimed: the body
sent to `"bob"` has the member `UserId` with both claimants; and on a deal that
differs only in its claimant (`"carol"`), the body is different. -/
theorem claim_response_shows_claimants :
    (ClaimDeal (AList.singleton "a" ⟨"a", 3, 0, 100, 1, {"alice"}⟩) 5 "a" "bob").2.body.wire
      = Sum.inr [("id", JsonValue.string "a"), ("item", JsonValue.integer 3),
          ("price", JsonValue.number 0), ("endTime", JsonValue.timestamp 100),
          ("claimed", JsonValue.integer 2), ("UserId", JsonValue.trueMap {"alice", "bob"})] ∧
    (ClaimDeal (AList.singleton "a" ⟨"a", 3, 0, 100, 1, {"alice"}⟩) 5 "a" "bob").2.body.wire
      ≠ (ClaimDeal (AList.singleton "a" ⟨"a", 3, 0, 100, 1, {"carol"}⟩) 5 "a" "bob").2.body.wire ∧
    encodeDeal ⟨"a", 3, 0, 100, 1, {"alice"}⟩ ≠ encodeDeal ⟨"a", 3, 0, 100, 1, {"carol"}⟩ := by
  have h1 := ClaimDeal_free_slot (AList.singleton "a" ⟨"a", 3, 0, 100, 1, {"alice"}⟩) 5 "a"
    "bob" ⟨"a", 3, 0, 100, 1, {"alice"}⟩ (by decide) (by decide) (by decide) (by decide)
    (by decide) (by decide)
  have h2 := ClaimDeal_free_slot (AList.singleton "a" ⟨"a", 3, 0, 100, 1, {"carol"}⟩) 5 "a"
    "bob" ⟨"a", 3, 0, 100, 1, {"carol"}⟩ (by decide) (by decide) (by decide) (by decide)
    (by decide) (by decide)
  have hne : ({"alice"} : Finset String) ≠ {"carol"} := by
    intro h
    have hmem : "alice" ∈ ({"carol"} : Finset String) := by
      rw [← h]
      exact Finset.mem_singleton_self _
    simp at hmem
  refine ⟨?_, ?_, ?_⟩
  · rw [h1]
    simp [Body.wire, encodeDeal, Finset.pair_comm]
  · rw [h1, h2]
    intro h
    have hu : insert "bob" ({"alice"} : Finset String) = insert "bob" {"carol"} :=
      encodeDeal_determines_claimants _ _ (Sum.inr.inj h)
    have hmem : "alice" ∈ insert "bob" ({"carol"} : Finset String) := by
      rw [← hu]
      simp
    simp at hmem
  · intro h
    exact hne (encodeDeal_determines_claimants _ _ h)

end DealOfTheDay
